import Mathlib

/-!
mlpack ANN: `BinaryClassificationLayer` and `OrthogonalRegularizer`

A shallow embedding of

* `src/mlpack/methods/ann/layer/binary_classification_layer.hpp`
* `src/mlpack/methods/ann/regularizer/orthogonal_regularizer.hpp`

**Numeric model.**

Two models of the C++ element type `double` are used.

* `ℚ` (type `Mat`): every finite `double` is a rational number, and the
  arithmetic is taken exact.  It serves the statements about shape, position,
  thresholding and the algebra of the gradient.
* `F64` (type `FMat`): IEEE 754 binary64 with round-to-nearest-even, infinities
  and NaN.  A finite value is an integer multiple of `2^-1074`, held as that
  integer, so sums and differences of finite values are exact integers before
  they are rounded.  It serves the statements that depend on non-finite entries
  or on rounding.  The two zeros are not distinguished.

The C++ type `int` is modelled by `Int`, with the range of a 32-bit `int` made
explicit where a value is converted into it.

**Matrix model.**

The matrix type the templates are instantiated with (Armadillo's dense matrix)
is a run-time shaped container.  `Mat` carries the two dimensions and the
entries; operations whose operands must conform return `none` where Armadillo
raises its size-mismatch error.

**Out-parameters.**

The C++ operations return `void` and write their result through a reference
parameter.  Each embedded operation takes the previous value of that parameter
as an argument and returns its new value.
-/

set_option linter.unusedVariables false
set_option exponentiation.threshold 4096
set_option maxRecDepth 4000

namespace mlpack.ann

open Matrix

/-! ## The matrix container -/

/-- A dense matrix with run-time shape: `n_rows`, `n_cols` and the entries. -/
structure Mat where
  n_rows : Nat
  n_cols : Nat
  mem : Matrix (Fin n_rows) (Fin n_cols) ℚ

namespace Mat

/-- Bounds-checked element access: `none` outside the shape. -/
def at? (M : Mat) (i j : Nat) : Option ℚ :=
  if h : i < M.n_rows ∧ j < M.n_cols then some (M.mem ⟨i, h.1⟩ ⟨j, h.2⟩) else none

/-- The all-zero matrix of the given shape. -/
def zeros (n m : Nat) : Mat := ⟨n, m, fun _ _ => 0⟩

/-- The matrix with ones on the main diagonal and zeros elsewhere. -/
def eye (n m : Nat) : Mat := ⟨n, m, fun i j => if i.val = j.val then 1 else 0⟩

/-- Element-wise subtraction `A - B`; the shapes must agree. -/
def sub (A B : Mat) : Option Mat :=
  if h : A.n_rows = B.n_rows ∧ A.n_cols = B.n_cols then
    some ⟨A.n_rows, A.n_cols,
      fun i j => A.mem i j - B.mem (Fin.cast h.1 i) (Fin.cast h.2 j)⟩
  else none

/-- Matrix product `A * B`; the inner dimensions must agree. -/
def mul (A B : Mat) : Option Mat :=
  if h : A.n_cols = B.n_rows then
    some ⟨A.n_rows, B.n_cols,
      fun i j => ∑ k : Fin A.n_cols, A.mem i k * B.mem (Fin.cast h k) j⟩
  else none

/-- Transpose, `A.t()`. -/
def t (A : Mat) : Mat := ⟨A.n_cols, A.n_rows, fun i j => A.mem j i⟩

/-- Scalar multiple `c * A`. -/
def scale (c : ℚ) (A : Mat) : Mat := ⟨A.n_rows, A.n_cols, fun i j => c * A.mem i j⟩

/-- In-place element-wise transform, `A.transform(f)`. -/
def transform (A : Mat) (f : ℚ → ℚ) : Mat := ⟨A.n_rows, A.n_cols, fun i j => f (A.mem i j)⟩

end Mat

/-- The rows of `W` are orthonormal: `W * W.t()` is the identity of the row
    dimension of `W`. -/
def Mat.RowOrthonormal (W : Mat) : Prop :=
  W.mul W.t = some (Mat.eye W.n_rows W.n_rows)

/-! ## `BinaryClassificationLayer` -/

/-- The layer holds no data. -/
structure BinaryClassificationLayer where
  deriving DecidableEq, Repr

namespace BinaryClassificationLayer

/-- `error = inputActivations - target;` -/
def CalculateError (self : BinaryClassificationLayer)
    (inputActivations target : Mat) (error : Mat) : Option Mat :=
  inputActivations.sub target

/-- `output = inputActivations;
    output.transform( [](double value) { return (value > 0.5 ? 1 : 0); } );`
    The lambda returns an `int`, which is stored back as an element. -/
def OutputClass (self : BinaryClassificationLayer)
    (inputActivations : Mat) (output : Mat) : Mat :=
  let output := inputActivations
  output.transform (fun value => (((if value > 0.5 then 1 else 0 : Int)) : ℚ))

end BinaryClassificationLayer

/-! ## `OrthogonalRegularizer` -/

/-- Smallest value of a 32-bit `int`. -/
def INT_MIN : Int := -2147483648

/-- Largest value of a 32-bit `int`. -/
def INT_MAX : Int := 2147483647

/-- The value a floating-point number converts to when it initialises an `int`:
    the fractional part is discarded (truncation toward zero). -/
def truncToInt (x : ℚ) : Int := if 0 ≤ x then ⌊x⌋ else ⌈x⌉

/-- The regularizer object; its only member is `const int factor;`. -/
structure OrthogonalRegularizer where
  factor : Int
  deriving DecidableEq, Repr

/-- Modelled from the spec: the constructor `OrthogonalRegularizer(double factor)`
    is declared in the header and defined in `orthogonal_regularizer_impl.hpp`,
    which is not part of the sources at hand.  By the spec it stores `factor`.
    The member it stores into is the header's `const int factor`, so the
    `double` argument is converted to `int`; the conversion is undefined when the
    truncated value does not fit, which is `none` here.  (A Lean structure
    cannot have a member named as the structure; `Create` is the spec's name.) -/
def OrthogonalRegularizer.Create (factor : ℚ) : Option OrthogonalRegularizer :=
  if INT_MIN ≤ truncToInt factor ∧ truncToInt factor ≤ INT_MAX then
    some ⟨truncToInt factor⟩
  else none

namespace OrthogonalRegularizer

/-- The constructor called without an argument: the declared default is `1.0`. -/
def CreateDefault : Option OrthogonalRegularizer :=
  Create 1.0

/-- Modelled from the spec: the body of `Evaluate` is in
    `orthogonal_regularizer_impl.hpp`, which is not part of the sources at hand.
    By the spec, `gradient = factor · 2 · (weight · weightᵗ − I_n) · weight`
    with `I_n` the identity of the row dimension of `weight`, and `gradient` is
    a fresh result.  The products and the difference are the container's, with
    their conformance checks. -/
def Evaluate (self : OrthogonalRegularizer) (weight : Mat) (gradient : Mat) :
    Option Mat := do
  let wwt ← weight.mul weight.t
  let dev ← wwt.sub (Mat.eye weight.n_rows weight.n_rows)
  (Mat.scale ((self.factor : ℚ) * 2) dev).mul weight

end OrthogonalRegularizer

/-! ## Concrete matrices used in the examples -/

/-- The 1-by-1 matrix `[[a]]`. -/
def mat11 (a : ℚ) : Mat := ⟨1, 1, fun _ _ => a⟩

/-- The 2-by-2 matrix `[[a, b], [c, d]]`. -/
def mat22 (a b c d : ℚ) : Mat := ⟨2, 2, !![a, b; c, d]⟩

/-- The 1-by-2 matrix `[[a, b]]`. -/
def mat12 (a b : ℚ) : Mat := ⟨1, 2, !![a, b]⟩

/-! ## The operations on the caller's objects

`CalculateError` and `OutputClass` receive references.  A `Store` holds the
caller's matrix objects by address; the operations below read the objects the
`const` references name and assign to the object the out-parameter names.  The
same address may be passed for an input and for the out-parameter. -/

/-- The caller's matrix objects, by address. -/
abbrev Store := Nat → Mat

namespace BinaryClassificationLayer

/-- `error = inputActivations - target;` on references: the difference of the
    objects at `inputActivations` and `target` is assigned to the object at
    `error`; on a size mismatch the subtraction raises and nothing is assigned. -/
def CalculateErrorRef (self : BinaryClassificationLayer) (s : Store)
    (inputActivations target error : Nat) : Option Store :=
  match (s inputActivations).sub (s target) with
  | some e => some (Function.update s error e)
  | none => none

/-- `output = inputActivations;
    output.transform( [](double value) { return (value > 0.5 ? 1 : 0); } );`
    on references: the object at `output` is assigned the object at
    `inputActivations`, then transformed in place. -/
def OutputClassRef (self : BinaryClassificationLayer) (s : Store)
    (inputActivations output : Nat) : Store :=
  let s1 := Function.update s output (s inputActivations)
  Function.update s1 output
    ((s1 output).transform (fun value => (((if value > 0.5 then 1 else 0 : Int)) : ℚ)))

end BinaryClassificationLayer

/-! ## `LayerTraits` -/

/-- The five capability flags of a layer type. -/
structure LayerTraits where
  IsBinary : Bool
  IsOutputLayer : Bool
  IsBiasLayer : Bool
  IsLSTMLayer : Bool
  IsConnection : Bool
  deriving DecidableEq, Repr

namespace LayerTraits

/-- Modelled from the spec: the primary template `LayerTraits<LayerType>` is in
    `layer_traits.hpp`, which is not part of the sources at hand.  By the spec a
    layer type without a specialized descriptor has all five flags false. -/
def Default : LayerTraits where
  IsBinary := false
  IsOutputLayer := false
  IsBiasLayer := false
  IsLSTMLayer := false
  IsConnection := false

/-- `template <> class LayerTraits<BinaryClassificationLayer>`. -/
def BinaryClassificationLayer : LayerTraits where
  IsBinary := true
  IsOutputLayer := true
  IsBiasLayer := false
  IsLSTMLayer := false
  IsConnection := false

/-- The flags of a descriptor, in declaration order. -/
def flags (d : LayerTraits) : List Bool :=
  [d.IsBinary, d.IsOutputLayer, d.IsBiasLayer, d.IsLSTMLayer, d.IsConnection]

end LayerTraits

/-! ## IEEE 754 binary64

A finite `double` is `k * 2^-1074` for an integer `k`: the subnormal spacing is
`2^-1074`, and every larger finite value is a multiple of it.  The largest
finite value is `(2^53 - 1) * 2^2045` in these units, and `2^2098` stands for
`2^1024`, where rounding overflows to infinity. -/

/-- The integer nearest to `a / b`, ties to the even one. -/
def roundHalfEven (a b : Nat) : Nat :=
  let q := a / b
  let r := a % b
  if 2 * r < b then q else if b < 2 * r then q + 1 else if q % 2 = 0 then q else q + 1

/-- Binary search for `⌊log2 n⌋` over `lvl` levels; exact for `0 < n < 2^(2^lvl)`. -/
def log2Go : Nat → Nat → Nat
  | 0, _ => 0
  | lvl + 1, n =>
    if 2 ^ 2 ^ lvl ≤ n then 2 ^ lvl + log2Go lvl (n / 2 ^ 2 ^ lvl) else log2Go lvl n

/-- The number of binary digits of `n`, for `n < 2^4096`. -/
def bitLength (n : Nat) : Nat := if n = 0 then 0 else log2Go 12 n + 1

/-- Round the magnitude `a / b` (in units of `2^-1074`) to 53 significant bits,
    nearest-even; `none` when the result overflows the finite range. -/
def roundMagnitude (a b : Nat) : Option Nat :=
  if 2 ^ 2099 ≤ a / b then none
  else
    let s := bitLength (a / b) - 53
    let m := roundHalfEven a (b * 2 ^ s) * 2 ^ s
    if 2 ^ 2098 ≤ m then none else some m

/-- A binary64 value: finite `k * 2^-1074`, an infinity, or NaN. -/
inductive F64 where
  | fin (k : Int)
  | inf (negative : Bool)
  | nan
  deriving DecidableEq, Repr

namespace F64

/-- The binary64 value nearest to `num / den`: what a decimal literal or an
    integer converts to. -/
def ofRatio (num : Int) (den : Nat) : F64 :=
  match roundMagnitude (num.natAbs * 2 ^ 1074) den with
  | none => F64.inf (decide (num < 0))
  | some m => if num < 0 then F64.fin (-(m : Int)) else F64.fin (m : Int)

/-- Round an exact integer count of units `2^-1074` to binary64. -/
def round (d : Int) : F64 :=
  match roundMagnitude d.natAbs 1 with
  | none => F64.inf (decide (d < 0))
  | some m => if d < 0 then F64.fin (-(m : Int)) else F64.fin (m : Int)

/-- IEEE subtraction `a - b`. -/
def sub : F64 → F64 → F64
  | F64.nan, _ => F64.nan
  | _, F64.nan => F64.nan
  | F64.inf s, F64.inf s2 => if s = s2 then F64.nan else F64.inf s
  | F64.inf s, F64.fin _ => F64.inf s
  | F64.fin _, F64.inf s => F64.inf (!s)
  | F64.fin a, F64.fin b => F64.round (a - b)

/-- IEEE comparison `a < b`; false when either side is NaN. -/
def lt : F64 → F64 → Bool
  | F64.nan, _ => false
  | _, F64.nan => false
  | F64.fin a, F64.fin b => decide (a < b)
  | F64.fin _, F64.inf negative => !negative
  | F64.inf negative, F64.fin _ => negative
  | F64.inf n1, F64.inf n2 => n1 && !n2

/-- The value is finite. -/
def isFinite : F64 → Bool
  | F64.fin _ => true
  | _ => false

end F64

/-- A dense matrix of binary64 values with run-time shape. -/
structure FMat where
  n_rows : Nat
  n_cols : Nat
  mem : Fin n_rows → Fin n_cols → F64

namespace FMat

/-- Bounds-checked element access: `none` outside the shape. -/
def at? (M : FMat) (i j : Nat) : Option F64 :=
  if h : i < M.n_rows ∧ j < M.n_cols then some (M.mem ⟨i, h.1⟩ ⟨j, h.2⟩) else none

/-- The all-zero matrix of the given shape. -/
def zeros (n m : Nat) : FMat := ⟨n, m, fun _ _ => F64.fin 0⟩

/-- Element-wise subtraction `A - B`; the shapes must agree. -/
def sub (A B : FMat) : Option FMat :=
  if h : A.n_rows = B.n_rows ∧ A.n_cols = B.n_cols then
    some ⟨A.n_rows, A.n_cols,
      fun i j => F64.sub (A.mem i j) (B.mem (Fin.cast h.1 i) (Fin.cast h.2 j))⟩
  else none

/-- In-place element-wise transform, `A.transform(f)`. -/
def transform (A : FMat) (f : F64 → F64) : FMat :=
  ⟨A.n_rows, A.n_cols, fun i j => f (A.mem i j)⟩

end FMat

namespace BinaryClassificationLayer

/-- `error = inputActivations - target;` on binary64 entries. -/
def CalculateErrorF64 (self : BinaryClassificationLayer)
    (inputActivations target : FMat) (error : FMat) : Option FMat :=
  inputActivations.sub target

/-- `output = inputActivations;
    output.transform( [](double value) { return (value > 0.5 ? 1 : 0); } );`
    on binary64 entries: `0.5` is the literal's value, and the `int` the lambda
    returns is converted back to an element. -/
def OutputClassF64 (self : BinaryClassificationLayer)
    (inputActivations : FMat) (output : FMat) : FMat :=
  let output := inputActivations
  output.transform
    (fun value => F64.ofRatio (if F64.lt (F64.ofRatio 5 10) value then 1 else 0) 1)

end BinaryClassificationLayer

/-- The 2-by-2 binary64 matrix `[[a, b], [c, d]]`. -/
def fmat22 (a b c d : F64) : FMat :=
  ⟨2, 2, fun i j => if i.val = 0 then (if j.val = 0 then a else b)
    else (if j.val = 0 then c else d)⟩

/-- The 1-by-2 binary64 matrix `[[a, b]]`. -/
def fmat12 (a b : F64) : FMat := ⟨1, 2, fun _ j => if j.val = 0 then a else b⟩

/-- The count of units `2^-1074` of a finite value (0 for the others). -/
def F64.units : F64 → Int
  | F64.fin k => k
  | _ => 0

/-- The activations `[[0.2, 0.7], [0.9, 0.4]]`, each literal as its binary64 value. -/
def scenarioA : FMat :=
  fmat22 (F64.ofRatio 2 10) (F64.ofRatio 7 10) (F64.ofRatio 9 10) (F64.ofRatio 4 10)

/-- The targets `[[0, 1], [1, 0]]`. -/
def scenarioT : FMat :=
  fmat22 (F64.ofRatio 0 1) (F64.ofRatio 1 1) (F64.ofRatio 1 1) (F64.ofRatio 0 1)

/-! ## Shared lemmas -/

theorem FMat.sub_same_shape (A B : FMat) (h1 : A.n_rows = B.n_rows) (h2 : A.n_cols = B.n_cols) :
    A.sub B = some ⟨A.n_rows, A.n_cols,
      fun i j => F64.sub (A.mem i j) (B.mem (Fin.cast h1 i) (Fin.cast h2 j))⟩ := by
  simp [FMat.sub, h1, h2]

theorem fmat22_of_entries (f : Fin 2 → Fin 2 → F64) (a b c d : F64)
    (h00 : f 0 0 = a) (h01 : f 0 1 = b) (h10 : f 1 0 = c) (h11 : f 1 1 = d) :
    (⟨2, 2, f⟩ : FMat) = fmat22 a b c d := by
  simp only [fmat22, FMat.mk.injEq, heq_eq_eq, true_and]
  funext i j
  fin_cases i <;> fin_cases j <;> simp [h00, h01, h10, h11]

theorem F64.sub_self_fin (k : Int) : F64.sub (F64.fin k) (F64.fin k) = F64.fin 0 := by
  simp only [F64.sub, sub_self]
  decide

theorem F64.sub_self_not_fin (x : F64) (h : x.isFinite = false) : F64.sub x x = F64.nan := by
  cases x with
  | fin k => simp [F64.isFinite] at h
  | inf s => simp [F64.sub]
  | nan => rfl

theorem Mat.sub_conform (A B : Mat) (h1 : A.n_rows = B.n_rows) (h2 : A.n_cols = B.n_cols) :
    A.sub B = some ⟨A.n_rows, A.n_cols,
      fun i j => A.mem i j - B.mem (Fin.cast h1 i) (Fin.cast h2 j)⟩ := by
  simp [Mat.sub, h1, h2]

theorem Mat.at?_mk (n m : Nat) (f : Matrix (Fin n) (Fin m) ℚ) (i j : Nat)
    (hi : i < n) (hj : j < m) : (Mat.mk n m f).at? i j = some (f ⟨i, hi⟩ ⟨j, hj⟩) := by
  simp [Mat.at?, hi, hj]

/-- The typed form of the gradient: `(factor * 2) • ((W Wᵀ - 1) W)`. -/
theorem OrthogonalRegularizer.Evaluate_eq (r : OrthogonalRegularizer) (W g : Mat) :
    r.Evaluate W g = some ⟨W.n_rows, W.n_cols,
      ((r.factor : ℚ) * 2) • ((W.mem * W.memᵀ - 1) * W.mem)⟩ := by
  simp only [OrthogonalRegularizer.Evaluate, Mat.mul, Mat.t, Mat.sub, Mat.eye, Mat.scale]
  simp
  ext i j
  simp [Matrix.mul_apply, Matrix.one_apply, Fin.ext_iff, Finset.mul_sum, mul_assoc]

theorem Mat.mul_t_self (W : Mat) :
    W.mul W.t = some ⟨W.n_rows, W.n_rows, W.mem * W.memᵀ⟩ := by
  simp only [Mat.mul, Mat.t]
  simp
  ext i j
  simp [Matrix.mul_apply]

theorem Mat.eye_square (n : Nat) : Mat.eye n n = ⟨n, n, 1⟩ := by
  simp only [Mat.eye, Mat.mk.injEq, heq_eq_eq, true_and]
  ext i j
  simp [Matrix.one_apply, Fin.ext_iff]

theorem Mat.rowOrthonormal_iff (W : Mat) :
    W.RowOrthonormal ↔ W.mem * W.memᵀ = 1 := by
  simp [Mat.RowOrthonormal, Mat.mul_t_self, Mat.eye_square]

/-- With a held factor other than 0, the gradient is all-zero exactly when
    `(W Wᵀ - 1) W` is. -/
theorem OrthogonalRegularizer.Evaluate_eq_zeros_iff (r : OrthogonalRegularizer) (W g : Mat)
    (h : r.factor ≠ 0) :
    r.Evaluate W g = some (Mat.zeros W.n_rows W.n_cols) ↔
      (W.mem * W.memᵀ - 1) * W.mem = 0 := by
  have hq : ((r.factor : ℚ) * 2) ≠ 0 := by
    have : (r.factor : ℚ) ≠ 0 := by exact_mod_cast h
    positivity
  rw [OrthogonalRegularizer.Evaluate_eq]
  simp only [Mat.zeros, Option.some.injEq, Mat.mk.injEq, heq_eq_eq, true_and]
  constructor
  · intro h0
    have h1 : ((r.factor : ℚ) * 2) • ((W.mem * W.memᵀ - 1) * W.mem) = 0 := by
      ext i j
      exact congrFun (congrFun h0 i) j
    rcases smul_eq_zero.mp h1 with h2 | h2
    · exact absurd h2 hq
    · exact h2
  · intro h0
    rw [h0, smul_zero]
    rfl

/-! ## `BinaryClassificationLayer`: error and class -/

/-- C1: for matrices `A` and `T` of equal shape, `CalculateError(A, T)` succeeds
    and leaves in `error` a matrix of that shape whose entry at every position
    `(i, j)` is `A[i][j] - T[i][j]`, whatever `error` held before. -/
theorem CalculateError_entrywise (l : BinaryClassificationLayer) (A T error : Mat)
    (hr : A.n_rows = T.n_rows) (hc : A.n_cols = T.n_cols) :
    ∃ E : Mat, l.CalculateError A T error = some E ∧
      E.n_rows = A.n_rows ∧ E.n_cols = A.n_cols ∧
      ∀ (i : Fin A.n_rows) (j : Fin A.n_cols), ∃ a t : ℚ,
        A.at? i j = some a ∧ T.at? i j = some t ∧ E.at? i j = some (a - t) := by
  refine ⟨_, Mat.sub_conform A T hr hc, rfl, rfl, ?_⟩
  intro i j
  refine ⟨A.mem i j, T.mem (Fin.cast hr i) (Fin.cast hc j), ?_, ?_, ?_⟩
  · simp [Mat.at?]
  · have hi : i.val < T.n_rows := hr ▸ i.isLt
    have hj : j.val < T.n_cols := hc ▸ j.isLt
    simp only [Mat.at?, hi, hj, and_self, dite_true]
    rfl
  · simp [Mat.at?]

/-- Witness of C1 at `A = [[1, 2], [3, 4]]`, `T = [[0, 1], [1, 0]]`. -/
theorem CalculateError_entrywise_witness :
    ((mat22 1 2 3 4).n_rows = (mat22 0 1 1 0).n_rows ∧
      (mat22 1 2 3 4).n_cols = (mat22 0 1 1 0).n_cols) ∧
    ∃ E : Mat,
      BinaryClassificationLayer.CalculateError ⟨⟩ (mat22 1 2 3 4) (mat22 0 1 1 0)
        (Mat.zeros 0 0) = some E ∧
      E.n_rows = (mat22 1 2 3 4).n_rows ∧ E.n_cols = (mat22 1 2 3 4).n_cols ∧
      ∀ (i : Fin (mat22 1 2 3 4).n_rows) (j : Fin (mat22 1 2 3 4).n_cols), ∃ a t : ℚ,
        (mat22 1 2 3 4).at? i j = some a ∧ (mat22 0 1 1 0).at? i j = some t ∧
        E.at? i j = some (a - t) :=
  ⟨⟨rfl, rfl⟩, CalculateError_entrywise ⟨⟩ (mat22 1 2 3 4) (mat22 0 1 1 0) (Mat.zeros 0 0) rfl rfl⟩

/-- C2: for a matrix `A` of any shape, `OutputClass(A)` leaves in `output` a
    matrix of the same shape whose entry at every position is 1 exactly when the
    entry of `A` there is strictly greater than 0.5 and 0 exactly when it is not;
    an entry equal to 0.5 gives 0. -/
theorem OutputClass_threshold (l : BinaryClassificationLayer) (A output : Mat) :
    (l.OutputClass A output).n_rows = A.n_rows ∧
    (l.OutputClass A output).n_cols = A.n_cols ∧
    ∀ (i : Fin A.n_rows) (j : Fin A.n_cols), ∃ e : ℚ,
      (l.OutputClass A output).at? i j = some e ∧
      (e = 1 ↔ A.mem i j > 0.5) ∧ (e = 0 ↔ ¬ A.mem i j > 0.5) ∧
      (A.mem i j = 0.5 → e = 0) := by
  refine ⟨rfl, rfl, ?_⟩
  intro i j
  refine ⟨if A.mem i j > 0.5 then 1 else 0, ?_, ?_, ?_, ?_⟩
  · simp [BinaryClassificationLayer.OutputClass, Mat.transform, Mat.at?]
  · by_cases h : A.mem i j > 0.5 <;> simp [h]
  · by_cases h : A.mem i j > 0.5 <;> simp [h]
  · intro h
    rw [h]
    norm_num

/-- Witness of C2 at the 1-by-1 matrix `[[0.5]]`: the class is 0. -/
theorem OutputClass_threshold_witness :
    (BinaryClassificationLayer.OutputClass ⟨⟩ (mat11 0.5) (Mat.zeros 0 0)).at? 0 0 = some 0 := by
  obtain ⟨e, he, -, -, h0⟩ :=
    (OutputClass_threshold ⟨⟩ (mat11 0.5) (Mat.zeros 0 0)).2.2 (0 : Fin 1) (0 : Fin 1)
  have : e = 0 := h0 rfl
  rw [this] at he
  exact he

/-- C9: `OutputClass` is idempotent, and every matrix whose entries are all 0 or
    1 is a fixed point of it (whatever the out-parameters held before). -/
theorem OutputClass_idempotent (l : BinaryClassificationLayer) (A o1 o2 o3 : Mat) :
    l.OutputClass (l.OutputClass A o1) o2 = l.OutputClass A o3 ∧
    ((∀ (i : Fin A.n_rows) (j : Fin A.n_cols), A.mem i j = 0 ∨ A.mem i j = 1) →
      l.OutputClass A o1 = A) := by
  constructor
  · simp only [BinaryClassificationLayer.OutputClass, Mat.transform, Mat.mk.injEq, heq_eq_eq,
      true_and]
    funext i j
    by_cases h : A.mem i j > 0.5 <;> simp [h] <;> norm_num
  · intro hA
    obtain ⟨n, m, f⟩ := A
    simp only [BinaryClassificationLayer.OutputClass, Mat.transform, Mat.mk.injEq, heq_eq_eq,
      true_and]
    funext i j
    rcases hA i j with h | h <;> simp only at h <;> simp only [h] <;> norm_num

/-- Witness of C9 at `[[0, 1], [1, 0]]`. -/
theorem OutputClass_idempotent_witness :
    (∀ (i : Fin (mat22 0 1 1 0).n_rows) (j : Fin (mat22 0 1 1 0).n_cols),
      (mat22 0 1 1 0).mem i j = 0 ∨ (mat22 0 1 1 0).mem i j = 1) ∧
    BinaryClassificationLayer.OutputClass ⟨⟩ (mat22 0 1 1 0) (Mat.zeros 0 0) = mat22 0 1 1 0 :=
  have h : ∀ (i : Fin (mat22 0 1 1 0).n_rows) (j : Fin (mat22 0 1 1 0).n_cols),
      (mat22 0 1 1 0).mem i j = 0 ∨ (mat22 0 1 1 0).mem i j = 1 := by
    intro i j
    change Fin 2 at i
    change Fin 2 at j
    fin_cases i <;> fin_cases j <;> simp [mat22]
  ⟨h, (OutputClass_idempotent ⟨⟩ (mat22 0 1 1 0) (Mat.zeros 0 0) (Mat.zeros 0 0)
    (Mat.zeros 0 0)).2 h⟩

/-- C10 fails at `A = [[inf, NaN]]`: `CalculateError(A, A)` leaves
    `[[NaN, NaN]]` in `error`, not the zero matrix. -/
theorem CalculateError_self_counterexample :
    BinaryClassificationLayer.CalculateErrorF64 ⟨⟩ (fmat12 (F64.inf false) F64.nan)
        (fmat12 (F64.inf false) F64.nan) (FMat.zeros 0 0) =
      some (fmat12 F64.nan F64.nan) ∧
    BinaryClassificationLayer.CalculateErrorF64 ⟨⟩ (fmat12 (F64.inf false) F64.nan)
        (fmat12 (F64.inf false) F64.nan) (FMat.zeros 0 0) ≠
      some (FMat.zeros (fmat12 (F64.inf false) F64.nan).n_rows
        (fmat12 (F64.inf false) F64.nan).n_cols) := by
  have h : BinaryClassificationLayer.CalculateErrorF64 ⟨⟩ (fmat12 (F64.inf false) F64.nan)
      (fmat12 (F64.inf false) F64.nan) (FMat.zeros 0 0) = some (fmat12 F64.nan F64.nan) := by
    rw [BinaryClassificationLayer.CalculateErrorF64, FMat.sub_same_shape _ _ rfl rfl,
      Option.some.injEq]
    simp only [fmat12, FMat.mk.injEq, heq_eq_eq, true_and]
    funext i j
    fin_cases j <;> rfl
  refine ⟨h, ?_⟩
  rw [h]
  intro h2
  have h3 := congrArg (fun o : Option FMat => o.bind (fun M => M.at? 0 0)) h2
  revert h3
  decide

/-- C10 as amended: `CalculateError(A, A)` succeeds for every `A`, and it leaves
    the zero matrix of the shape of `A` in `error` exactly when every entry of
    `A` is finite. -/
theorem CalculateError_self_finite (l : BinaryClassificationLayer) (A error : FMat) :
    (∃ E : FMat, l.CalculateErrorF64 A A error = some E ∧
      E.n_rows = A.n_rows ∧ E.n_cols = A.n_cols) ∧
    (l.CalculateErrorF64 A A error = some (FMat.zeros A.n_rows A.n_cols) ↔
      ∀ (i : Fin A.n_rows) (j : Fin A.n_cols), (A.mem i j).isFinite = true) := by
  have hs : l.CalculateErrorF64 A A error =
      some ⟨A.n_rows, A.n_cols, fun i j => F64.sub (A.mem i j) (A.mem i j)⟩ := by
    rw [BinaryClassificationLayer.CalculateErrorF64, FMat.sub_same_shape A A rfl rfl]
    rfl
  refine ⟨⟨_, hs, rfl, rfl⟩, ?_⟩
  rw [hs]
  simp only [FMat.zeros, Option.some.injEq, FMat.mk.injEq, heq_eq_eq, true_and]
  constructor
  · intro h i j
    have hij := congrFun (congrFun h i) j
    by_contra hnf
    have hnf2 : (A.mem i j).isFinite = false := by simpa using hnf
    rw [F64.sub_self_not_fin _ hnf2] at hij
    cases hij
  · intro h
    funext i j
    have hij := h i j
    cases hx : A.mem i j with
    | fin k => exact F64.sub_self_fin k
    | inf s =>
      rw [hx] at hij
      simp [F64.isFinite] at hij
    | nan =>
      rw [hx] at hij
      simp [F64.isFinite] at hij

/-- Witness of the amended C10 at `A = [[0.2, 0.7], [0.9, 0.4]]`. -/
theorem CalculateError_self_finite_witness :
    (∀ (i : Fin scenarioA.n_rows) (j : Fin scenarioA.n_cols),
      (scenarioA.mem i j).isFinite = true) ∧
    BinaryClassificationLayer.CalculateErrorF64 ⟨⟩ scenarioA scenarioA (FMat.zeros 0 0) =
      some (FMat.zeros 2 2) :=
  have h : ∀ (i : Fin scenarioA.n_rows) (j : Fin scenarioA.n_cols),
      (scenarioA.mem i j).isFinite = true := by
    intro i j
    change Fin 2 at i
    change Fin 2 at j
    fin_cases i <;> fin_cases j <;> decide
  ⟨h, (CalculateError_self_finite ⟨⟩ scenarioA (FMat.zeros 0 0)).2.mpr h⟩

theorem truncToInt_intCast (k : Int) : truncToInt (k : ℚ) = k := by
  unfold truncToInt
  split <;> simp

theorem mat22_rowOrthonormal_iff (a b c d : ℚ) :
    (mat22 a b c d).RowOrthonormal ↔
      a * a + b * b = 1 ∧ a * c + b * d = 0 ∧ c * a + d * b = 0 ∧ c * c + d * d = 1 := by
  rw [Mat.rowOrthonormal_iff]
  constructor
  · intro h
    have h00 := congrFun (congrFun h (0 : Fin 2)) (0 : Fin 2)
    have h01 := congrFun (congrFun h (0 : Fin 2)) (1 : Fin 2)
    have h10 := congrFun (congrFun h (1 : Fin 2)) (0 : Fin 2)
    have h11 := congrFun (congrFun h (1 : Fin 2)) (1 : Fin 2)
    simp [mat22, Matrix.mul_apply, Fin.sum_univ_two, Matrix.transpose_apply,
      Matrix.vecHead, Matrix.vecTail] at h00 h01 h10 h11
    exact ⟨h00, h01, h10, h11⟩
  · rintro ⟨h00, h01, h10, h11⟩
    ext i j
    change Fin 2 at i
    change Fin 2 at j
    fin_cases i <;> fin_cases j <;>
      simp [mat22, Matrix.mul_apply, Fin.sum_univ_two, Matrix.transpose_apply,
        Matrix.vecHead, Matrix.vecTail, h00, h01, h10, h11]

/-- The gradient at a 1-by-1 weight `[[w]]`. -/
theorem OrthogonalRegularizer.Evaluate_mat11 (r : OrthogonalRegularizer) (w : ℚ) (g : Mat) :
    r.Evaluate (mat11 w) g = some (mat11 ((r.factor : ℚ) * 2 * ((w * w - 1) * w))) := by
  rw [OrthogonalRegularizer.Evaluate_eq]
  simp only [mat11, Option.some.injEq, Mat.mk.injEq, heq_eq_eq, true_and]
  ext i j
  simp only [Matrix.smul_apply, Matrix.mul_apply, Matrix.sub_apply, Matrix.one_apply,
    Matrix.transpose_apply, Finset.univ_unique, Finset.sum_singleton, smul_eq_mul]
  rw [if_pos (Subsingleton.elim _ _)]

theorem mat11_injective (a b : ℚ) : mat11 a = mat11 b ↔ a = b := by
  constructor
  · intro h
    simp only [mat11, Mat.mk.injEq, heq_eq_eq, true_and] at h
    exact congrFun (congrFun h (0 : Fin 1)) (0 : Fin 1)
  · intro h
    rw [h]

/-! ## `OrthogonalRegularizer` -/

/-- C3, evaluated at the inputs the claim names: constructed with 2.5 the
    regularizer holds 2, constructed with 0.5 it holds 0, and no regularizer
    holds 2.5 or 0.5, the member being an `int`. -/
theorem Create_holds_truncated :
    OrthogonalRegularizer.Create 2.5 = some ⟨2⟩ ∧
    OrthogonalRegularizer.Create 0.5 = some ⟨0⟩ ∧
    ∀ r : OrthogonalRegularizer, (r.factor : ℚ) ≠ 2.5 ∧ (r.factor : ℚ) ≠ 0.5 := by
  have t1 : truncToInt 2.5 = 2 := by
    unfold truncToInt
    rw [if_pos (by norm_num)]
    exact Int.floor_eq_iff.mpr ⟨by norm_num, by norm_num⟩
  have t2 : truncToInt 0.5 = 0 := by
    unfold truncToInt
    rw [if_pos (by norm_num)]
    exact Int.floor_eq_iff.mpr ⟨by norm_num, by norm_num⟩
  refine ⟨?_, ?_, ?_⟩
  · simp [OrthogonalRegularizer.Create, t1, INT_MIN, INT_MAX]
  · simp [OrthogonalRegularizer.Create, t2, INT_MIN, INT_MAX]
  · intro r
    constructor
    · intro h
      have h2 : ((2 * r.factor : Int) : ℚ) = ((5 : Int) : ℚ) := by
        push_cast
        rw [h]
        norm_num
      have h3 : 2 * r.factor = 5 := by exact_mod_cast h2
      omega
    · intro h
      have h2 : ((2 * r.factor : Int) : ℚ) = ((1 : Int) : ℚ) := by
        push_cast
        rw [h]
        norm_num
      have h3 : 2 * r.factor = 1 := by exact_mod_cast h2
      omega

/-- C4: for every weight matrix `W` (any shape) and every regularizer,
    `Evaluate(W)` succeeds and leaves in `gradient` a matrix of the shape of `W`
    equal to `factor * 2 * (W * Wᵀ - I_n) * W` for the held `factor`; entry
    `(i, j)` is `factor * 2 * Σ_k (Σ_l W[i][l] * W[k][l] - [i = k]) * W[k][j]`. -/
theorem Evaluate_formula (r : OrthogonalRegularizer) (W gradient : Mat) :
    r.Evaluate W gradient = some ⟨W.n_rows, W.n_cols,
      ((r.factor : ℚ) * 2) • ((W.mem * W.memᵀ - 1) * W.mem)⟩ ∧
    ∃ G : Mat, r.Evaluate W gradient = some G ∧
      G.n_rows = W.n_rows ∧ G.n_cols = W.n_cols ∧
      ∀ (i : Fin W.n_rows) (j : Fin W.n_cols),
        G.at? i j = some ((r.factor : ℚ) * 2 *
          ∑ k : Fin W.n_rows,
            ((∑ l : Fin W.n_cols, W.mem i l * W.mem k l) - (if i = k then 1 else 0)) *
              W.mem k j) := by
  refine ⟨OrthogonalRegularizer.Evaluate_eq r W gradient, _,
    OrthogonalRegularizer.Evaluate_eq r W gradient, rfl, rfl, ?_⟩
  intro i j
  rw [Mat.at?_mk _ _ _ _ _ i.isLt j.isLt]
  simp [Matrix.mul_apply, Matrix.sub_apply, Matrix.one_apply]

/-- C5: for every square `W` with `W * Wᵀ = I_n` and every regularizer,
    `Evaluate(W)` leaves the all-zero matrix of the shape of `W` in `gradient`;
    for `W = [[1,0],[0,1]]` the result is `[[0,0],[0,0]]` with any factor. -/
theorem Evaluate_orthogonal_zero (r : OrthogonalRegularizer) (W gradient : Mat) :
    (W.n_rows = W.n_cols → W.RowOrthonormal →
      r.Evaluate W gradient = some (Mat.zeros W.n_rows W.n_rows)) ∧
    r.Evaluate (mat22 1 0 0 1) gradient = some (mat22 0 0 0 0) := by
  have key : ∀ V : Mat, V.RowOrthonormal →
      r.Evaluate V gradient = some (Mat.zeros V.n_rows V.n_cols) := by
    intro V hV
    rw [OrthogonalRegularizer.Evaluate_eq, (Mat.rowOrthonormal_iff V).mp hV]
    rw [sub_self, Matrix.zero_mul, smul_zero]
    rfl
  constructor
  · intro hsq hW
    rw [key W hW, ← hsq]
  · have hI : (mat22 1 0 0 1).RowOrthonormal := by
      rw [mat22_rowOrthonormal_iff]
      norm_num
    rw [key _ hI]
    simp only [Mat.zeros, mat22, Option.some.injEq, Mat.mk.injEq, heq_eq_eq, true_and]
    ext i j
    fin_cases i <;> fin_cases j <;> rfl

/-- Witness of C5 at the orthogonal `W = [[3/5, 4/5], [-4/5, 3/5]]`, factor 3. -/
theorem Evaluate_orthogonal_zero_witness :
    (mat22 (3/5) (4/5) (-4/5) (3/5)).n_rows = (mat22 (3/5) (4/5) (-4/5) (3/5)).n_cols ∧
    (mat22 (3/5) (4/5) (-4/5) (3/5)).RowOrthonormal ∧
    OrthogonalRegularizer.Evaluate ⟨3⟩ (mat22 (3/5) (4/5) (-4/5) (3/5)) (Mat.zeros 0 0) =
      some (Mat.zeros 2 2) :=
  have hW : (mat22 (3/5) (4/5) (-4/5) (3/5)).RowOrthonormal := by
    rw [mat22_rowOrthonormal_iff]
    norm_num
  ⟨rfl, hW,
    (Evaluate_orthogonal_zero ⟨3⟩ (mat22 (3/5) (4/5) (-4/5) (3/5)) (Mat.zeros 0 0)).1 rfl hW⟩

/-- C7, evaluated at `k = 0.5`, `f = 1`, `W = [[2]]`: constructed with `k * f`
    the regularizer holds 0 and its gradient is `[[0]]`; constructed with `f` it
    holds 1 and its gradient is `[[12]]`, and `k` times that is `[[6]]`. -/
theorem Evaluate_constructed_half :
    OrthogonalRegularizer.Create (0.5 * 1) = some ⟨0⟩ ∧
    OrthogonalRegularizer.Create 1 = some ⟨1⟩ ∧
    OrthogonalRegularizer.Evaluate ⟨0⟩ (mat11 2) (Mat.zeros 0 0) = some (mat11 0) ∧
    OrthogonalRegularizer.Evaluate ⟨1⟩ (mat11 2) (Mat.zeros 0 0) = some (mat11 12) ∧
    Mat.scale 0.5 (mat11 12) = mat11 6 ∧
    mat11 0 ≠ mat11 6 := by
  have t0 : truncToInt 0.5 = 0 := by
    unfold truncToInt
    rw [if_pos (by norm_num)]
    exact Int.floor_eq_iff.mpr ⟨by norm_num, by norm_num⟩
  have t1 : truncToInt 1 = 1 := by
    have := truncToInt_intCast 1
    simpa using this
  refine ⟨?_, ?_, ?_, ?_, ?_, ?_⟩
  · simp [OrthogonalRegularizer.Create, t0, INT_MIN, INT_MAX]
  · simp [OrthogonalRegularizer.Create, t1, INT_MIN, INT_MAX]
  · rw [OrthogonalRegularizer.Evaluate_mat11, Option.some.injEq, mat11_injective]
    norm_num
  · rw [OrthogonalRegularizer.Evaluate_mat11, Option.some.injEq, mat11_injective]
    norm_num
  · simp only [Mat.scale, mat11, Mat.mk.injEq, heq_eq_eq, true_and]
    funext i j
    norm_num
  · rw [Ne, mat11_injective]
    norm_num

/-- C8 fails at the all-zero 1-by-1 weight with factor 1: the gradient is
    all-zero, yet `W * Wᵀ` is `[[0]]`, not the identity. -/
theorem Evaluate_zero_iff_counterexample :
    OrthogonalRegularizer.Create 1 = some ⟨1⟩ ∧
    ¬ (OrthogonalRegularizer.Evaluate ⟨1⟩ (mat11 0) (Mat.zeros 0 0) =
          some (Mat.zeros (mat11 0).n_rows (mat11 0).n_cols) ↔
        (mat11 0).RowOrthonormal) := by
  constructor
  · have t1 : truncToInt 1 = 1 := by
      have := truncToInt_intCast 1
      simpa using this
    simp [OrthogonalRegularizer.Create, t1, INT_MIN, INT_MAX]
  · intro h
    have hz : OrthogonalRegularizer.Evaluate ⟨1⟩ (mat11 0) (Mat.zeros 0 0) =
        some (Mat.zeros (mat11 0).n_rows (mat11 0).n_cols) := by
      rw [OrthogonalRegularizer.Evaluate_mat11]
      simp only [mat11, Mat.zeros, Option.some.injEq, Mat.mk.injEq, heq_eq_eq, true_and]
      funext i j
      norm_num
    have ho := (Mat.rowOrthonormal_iff _).mp (h.mp hz)
    have h00 := congrFun (congrFun ho (0 : Fin 1)) (0 : Fin 1)
    simp [mat11, Matrix.mul_apply] at h00

/-- C8 as amended: for every weight matrix `W` and every regularizer holding a
    factor other than 0, `Evaluate(W)` is all-zero exactly when `W Wᵀ W = W`; it
    is all-zero whenever `W Wᵀ = I_n`; and where `W Wᵀ` has a right inverse it is
    all-zero exactly when `W Wᵀ = I_n`. -/
theorem Evaluate_zero_iff (r : OrthogonalRegularizer) (W gradient : Mat)
    (hf : r.factor ≠ 0) :
    (r.Evaluate W gradient = some (Mat.zeros W.n_rows W.n_cols) ↔
      W.mem * W.memᵀ * W.mem = W.mem) ∧
    (W.RowOrthonormal → r.Evaluate W gradient = some (Mat.zeros W.n_rows W.n_cols)) ∧
    ((∃ B : Matrix (Fin W.n_rows) (Fin W.n_rows) ℚ, W.mem * W.memᵀ * B = 1) →
      (r.Evaluate W gradient = some (Mat.zeros W.n_rows W.n_cols) ↔ W.RowOrthonormal)) := by
  have hz := OrthogonalRegularizer.Evaluate_eq_zeros_iff r W gradient hf
  have hfwd : W.RowOrthonormal →
      r.Evaluate W gradient = some (Mat.zeros W.n_rows W.n_cols) := by
    intro hW
    rw [hz, (Mat.rowOrthonormal_iff W).mp hW, sub_self, Matrix.zero_mul]
  refine ⟨?_, hfwd, ?_⟩
  · rw [hz, Matrix.sub_mul, Matrix.one_mul, sub_eq_zero]
  · rintro ⟨B, hB⟩
    refine ⟨?_, hfwd⟩
    intro h0
    rw [hz] at h0
    rw [Mat.rowOrthonormal_iff]
    have h1 : (W.mem * W.memᵀ - 1) * (W.mem * W.memᵀ * B) = 0 := by
      rw [← Matrix.mul_assoc, ← Matrix.mul_assoc, h0, Matrix.zero_mul, Matrix.zero_mul]
    rw [hB, Matrix.mul_one] at h1
    exact sub_eq_zero.mp h1

/-- Witness of the amended C8 at `W = [[2]]`, factor 1: `W Wᵀ = [[4]]` has the
    inverse `[[1/4]]`, so the gradient is all-zero exactly when the rows of `W`
    are orthonormal (neither is the case). -/
theorem Evaluate_zero_iff_witness :
    (1 : Int) ≠ 0 ∧
    (∃ B : Matrix (Fin (mat11 2).n_rows) (Fin (mat11 2).n_rows) ℚ,
      (mat11 2).mem * (mat11 2).memᵀ * B =
        (1 : Matrix (Fin (mat11 2).n_rows) (Fin (mat11 2).n_rows) ℚ)) ∧
    (OrthogonalRegularizer.Evaluate ⟨1⟩ (mat11 2) (Mat.zeros 0 0) =
        some (Mat.zeros (mat11 2).n_rows (mat11 2).n_cols) ↔ (mat11 2).RowOrthonormal) :=
  have hB : ∃ B : Matrix (Fin (mat11 2).n_rows) (Fin (mat11 2).n_rows) ℚ,
      (mat11 2).mem * (mat11 2).memᵀ * B =
        (1 : Matrix (Fin (mat11 2).n_rows) (Fin (mat11 2).n_rows) ℚ) := by
    refine ⟨fun _ _ => 1/4, ?_⟩
    ext i j
    have hij : i = j := Subsingleton.elim (α := Fin 1) i j
    simp [mat11, Matrix.mul_apply, Matrix.one_apply, hij]
    norm_num
  ⟨by decide, hB,
    (Evaluate_zero_iff ⟨1⟩ (mat11 2) (Mat.zeros 0 0) (by decide)).2.2 hB⟩

/-! ## Concrete scenario, traits, monotonicity -/

/-- C11 fails in the two entries that are rounded: on
    `A = [[0.2, 0.7], [0.9, 0.4]]`, `T = [[0, 1], [1, 0]]` the result of
    `CalculateError` is not `[[0.2, -0.3], [-0.1, 0.4]]`; its entry `0.7 - 1` is
    neither the binary64 value of `-0.3` nor the real number `-3/10`, and its
    entry `0.9 - 1` neither that of `-0.1` nor `-1/10`. -/
theorem concrete_scenario_counterexample :
    BinaryClassificationLayer.CalculateErrorF64 ⟨⟩ scenarioA scenarioT (FMat.zeros 0 0) ≠
      some (fmat22 (F64.ofRatio 2 10) (F64.ofRatio (-3) 10) (F64.ofRatio (-1) 10)
        (F64.ofRatio 4 10)) ∧
    F64.sub (F64.ofRatio 7 10) (F64.ofRatio 1 1) ≠ F64.ofRatio (-3) 10 ∧
    10 * (F64.sub (F64.ofRatio 7 10) (F64.ofRatio 1 1)).units ≠
      -3 * (((2 : Nat) ^ 1074 : Nat) : Int) ∧
    F64.sub (F64.ofRatio 9 10) (F64.ofRatio 1 1) ≠ F64.ofRatio (-1) 10 ∧
    10 * (F64.sub (F64.ofRatio 9 10) (F64.ofRatio 1 1)).units ≠
      -1 * (((2 : Nat) ^ 1074 : Nat) : Int) := by
  refine ⟨?_, by decide, by decide, by decide, by decide⟩
  intro h
  have h2 := congrArg (fun o : Option FMat => o.bind (fun M => M.at? 0 1)) h
  revert h2
  decide

/-- C11 as amended: on `A = [[0.2, 0.7], [0.9, 0.4]]` and `T = [[0, 1], [1, 0]]`
    (each literal as its binary64 value) `CalculateError(A, T)` leaves
    `[[0.2, -0.30000000000000004], [-0.09999999999999998, 0.4]]` in `error`,
    and `OutputClass(A)` leaves `[[0, 1], [1, 0]]` in `output`. -/
theorem concrete_scenario_binary64 (l : BinaryClassificationLayer) (error output : FMat) :
    l.CalculateErrorF64 scenarioA scenarioT error =
      some (fmat22 (F64.ofRatio 2 10)
        (F64.ofRatio (-30000000000000004) 100000000000000000)
        (F64.ofRatio (-9999999999999998) 100000000000000000)
        (F64.ofRatio 4 10)) ∧
    l.OutputClassF64 scenarioA output =
      fmat22 (F64.ofRatio 0 1) (F64.ofRatio 1 1) (F64.ofRatio 1 1) (F64.ofRatio 0 1) := by
  constructor
  · rw [BinaryClassificationLayer.CalculateErrorF64,
      FMat.sub_same_shape scenarioA scenarioT rfl rfl, Option.some.injEq]
    exact fmat22_of_entries _ _ _ _ _ (by decide) (by decide) (by decide) (by decide)
  · simp only [BinaryClassificationLayer.OutputClassF64, FMat.transform]
    exact fmat22_of_entries _ _ _ _ _ (by decide) (by decide) (by decide) (by decide)

/-- C13: the descriptor of `BinaryClassificationLayer` has `IsBinary` and
    `IsOutputLayer` true and `IsBiasLayer`, `IsLSTMLayer`, `IsConnection` false,
    so exactly two of its five flags are true, and it differs from the default
    descriptor, whose flags are all false. -/
theorem LayerTraits_BinaryClassificationLayer :
    LayerTraits.BinaryClassificationLayer.IsBinary = true ∧
    LayerTraits.BinaryClassificationLayer.IsOutputLayer = true ∧
    LayerTraits.BinaryClassificationLayer.IsBiasLayer = false ∧
    LayerTraits.BinaryClassificationLayer.IsLSTMLayer = false ∧
    LayerTraits.BinaryClassificationLayer.IsConnection = false ∧
    (LayerTraits.BinaryClassificationLayer.flags.count true = 2 ∧
      LayerTraits.BinaryClassificationLayer.flags.length = 5) ∧
    LayerTraits.Default.flags.count true = 0 ∧
    LayerTraits.BinaryClassificationLayer ≠ LayerTraits.Default := by
  decide

/-- C16: `OutputClass` is monotone: for `A` and `B` of the same shape with
    `A[i][j] <= B[i][j]` at every position, the two results are defined at every
    position of that shape and `OutputClass(A)[i][j] <= OutputClass(B)[i][j]`. -/
theorem OutputClass_monotone (l : BinaryClassificationLayer) (A B oA oB : Mat)
    (hr : A.n_rows = B.n_rows) (hc : A.n_cols = B.n_cols)
    (hle : ∀ (i j : Nat) (a b : ℚ), A.at? i j = some a → B.at? i j = some b → a ≤ b) :
    ∀ (i : Fin A.n_rows) (j : Fin A.n_cols), ∃ a b : ℚ,
      (l.OutputClass A oA).at? i j = some a ∧ (l.OutputClass B oB).at? i j = some b ∧
      a ≤ b := by
  intro i j
  have hi : i.val < B.n_rows := hr ▸ i.isLt
  have hj : j.val < B.n_cols := hc ▸ j.isLt
  have hab : A.mem i j ≤ B.mem ⟨i.val, hi⟩ ⟨j.val, hj⟩ := by
    apply hle i.val j.val
    · simp [Mat.at?]
    · simp [Mat.at?, hi, hj]
  refine ⟨(((if A.mem i j > 0.5 then 1 else 0 : Int)) : ℚ),
    (((if B.mem ⟨i.val, hi⟩ ⟨j.val, hj⟩ > 0.5 then 1 else 0 : Int)) : ℚ), ?_, ?_, ?_⟩
  · show (l.OutputClass A oA).at? i j = some _
    simp only [BinaryClassificationLayer.OutputClass, Mat.transform, Mat.at?, i.isLt, j.isLt,
      and_self, dite_true]
  · show (l.OutputClass B oB).at? i j = some _
    simp only [BinaryClassificationLayer.OutputClass, Mat.transform, Mat.at?, hi, hj,
      and_self, dite_true]
  · by_cases h1 : A.mem i j > 0.5
    · have h2 : B.mem ⟨i.val, hi⟩ ⟨j.val, hj⟩ > 0.5 := lt_of_lt_of_le h1 hab
      simp [h1, h2]
    · by_cases h2 : B.mem ⟨i.val, hi⟩ ⟨j.val, hj⟩ > 0.5 <;> simp [h1, h2]

/-- Witness of C16 at `A = [[0.2, 0.7], [0.9, 0.4]]`, `B = [[0.6, 0.7], [1, 0.4]]`. -/
theorem OutputClass_monotone_witness :
    ((mat22 0.2 0.7 0.9 0.4).n_rows = (mat22 0.6 0.7 1 0.4).n_rows ∧
      (mat22 0.2 0.7 0.9 0.4).n_cols = (mat22 0.6 0.7 1 0.4).n_cols ∧
      ∀ (i j : Nat) (a b : ℚ), (mat22 0.2 0.7 0.9 0.4).at? i j = some a →
        (mat22 0.6 0.7 1 0.4).at? i j = some b → a ≤ b) ∧
    ∀ (i : Fin (mat22 0.2 0.7 0.9 0.4).n_rows) (j : Fin (mat22 0.2 0.7 0.9 0.4).n_cols),
      ∃ a b : ℚ,
        (BinaryClassificationLayer.OutputClass ⟨⟩ (mat22 0.2 0.7 0.9 0.4)
          (Mat.zeros 0 0)).at? i j = some a ∧
        (BinaryClassificationLayer.OutputClass ⟨⟩ (mat22 0.6 0.7 1 0.4)
          (Mat.zeros 0 0)).at? i j = some b ∧ a ≤ b :=
  have hle : ∀ (i j : Nat) (a b : ℚ), (mat22 0.2 0.7 0.9 0.4).at? i j = some a →
      (mat22 0.6 0.7 1 0.4).at? i j = some b → a ≤ b := by
    intro i j a b ha hb
    by_cases h : i < 2 ∧ j < 2
    · obtain ⟨h1, h2⟩ := h
      simp only [mat22] at ha hb
      rw [Mat.at?_mk _ _ _ _ _ h1 h2, Option.some.injEq] at ha hb
      subst ha
      subst hb
      interval_cases i <;> interval_cases j <;> simp <;> norm_num
    · have hn : (mat22 0.2 0.7 0.9 0.4).at? i j = none := by
        simp only [Mat.at?, mat22]
        rw [dif_neg h]
      rw [hn] at ha
      cases ha
  ⟨⟨rfl, rfl, hle⟩,
    OutputClass_monotone ⟨⟩ (mat22 0.2 0.7 0.9 0.4) (mat22 0.6 0.7 1 0.4) (Mat.zeros 0 0)
      (Mat.zeros 0 0) rfl rfl hle⟩

/-! ## Construction: default factor and the `int` member -/

theorem truncToInt_in_range (f : ℚ) (hlo : -2147483649 < f) (hhi : f < 2147483648) :
    INT_MIN ≤ truncToInt f ∧ truncToInt f ≤ INT_MAX := by
  unfold truncToInt INT_MIN INT_MAX
  split
  · rename_i h0
    constructor
    · have : (0 : Int) ≤ ⌊f⌋ := Int.floor_nonneg.mpr h0
      omega
    · have h1 : ⌊f⌋ < 2147483648 := by
        rw [Int.floor_lt]
        exact_mod_cast hhi
      omega
  · rename_i h0
    have hneg : f ≤ 0 := le_of_lt (not_le.mp h0)
    constructor
    · have h1 : (-2147483649 : Int) < ⌈f⌉ := by
        rw [Int.lt_ceil]
        exact_mod_cast hlo
      omega
    · have h1 : ⌈f⌉ ≤ 0 := by
        rw [Int.ceil_le]
        exact_mod_cast hneg
      omega

theorem truncToInt_small (f : ℚ) (hlo : -1 < f) (hhi : f < 1) : truncToInt f = 0 := by
  unfold truncToInt
  split
  · rename_i h0
    exact Int.floor_eq_iff.mpr ⟨by exact_mod_cast h0, by simpa using hhi⟩
  · rename_i h0
    have hneg : f ≤ 0 := le_of_lt (not_le.mp h0)
    exact Int.ceil_eq_iff.mpr ⟨by simpa using hlo, by exact_mod_cast hneg⟩

theorem OrthogonalRegularizer.Evaluate_factor_zero (W g : Mat) :
    OrthogonalRegularizer.Evaluate ⟨0⟩ W g = some (Mat.zeros W.n_rows W.n_cols) := by
  rw [OrthogonalRegularizer.Evaluate_eq]
  simp only [Int.cast_zero, zero_mul, zero_smul]
  rfl

/-- C12: constructed without an argument the regularizer holds factor 1, as does
    the one constructed with 1.0, and on every weight matrix both succeed with
    the same gradient. -/
theorem CreateDefault_factor_one :
    OrthogonalRegularizer.CreateDefault = some ⟨1⟩ ∧
    OrthogonalRegularizer.Create 1.0 = some ⟨1⟩ ∧
    ∀ W g : Mat, ∃ G : Mat,
      OrthogonalRegularizer.CreateDefault.bind (fun r => r.Evaluate W g) = some G ∧
      (OrthogonalRegularizer.Create 1.0).bind (fun r => r.Evaluate W g) = some G := by
  have t1 : truncToInt 1.0 = 1 := by
    have h := truncToInt_intCast 1
    have e : ((1 : Int) : ℚ) = 1.0 := by norm_num
    rw [e] at h
    exact h
  have c1 : OrthogonalRegularizer.Create 1.0 = some ⟨1⟩ := by
    simp only [OrthogonalRegularizer.Create, t1, INT_MIN, INT_MAX]
    decide
  refine ⟨c1, c1, ?_⟩
  intro W g
  refine ⟨⟨W.n_rows, W.n_cols, (((1 : Int) : ℚ) * 2) • ((W.mem * W.memᵀ - 1) * W.mem)⟩, ?_, ?_⟩
  · rw [OrthogonalRegularizer.CreateDefault, c1, Option.some_bind,
      OrthogonalRegularizer.Evaluate_eq]
  · rw [c1, Option.some_bind, OrthogonalRegularizer.Evaluate_eq]

/-- C14: the factor a regularizer constructed with `f` holds is `f` truncated
    toward zero (construction succeeds when that fits a 32-bit `int`); for
    `-1 < f < 1` the held factor is 0 and `Evaluate` gives the all-zero gradient
    on every weight matrix. -/
theorem Create_truncates (f : ℚ) :
    (-2147483649 < f → f < 2147483648 →
      ∃ r : OrthogonalRegularizer, OrthogonalRegularizer.Create f = some r) ∧
    (∀ r : OrthogonalRegularizer, OrthogonalRegularizer.Create f = some r →
      (0 ≤ f → (0 ≤ r.factor ∧ (r.factor : ℚ) ≤ f ∧ f < (r.factor : ℚ) + 1)) ∧
      (f ≤ 0 → (r.factor ≤ 0 ∧ f ≤ (r.factor : ℚ) ∧ (r.factor : ℚ) - 1 < f))) ∧
    (-1 < f → f < 1 →
      OrthogonalRegularizer.Create f = some ⟨0⟩ ∧
      ∀ W g : Mat,
        OrthogonalRegularizer.Evaluate ⟨0⟩ W g = some (Mat.zeros W.n_rows W.n_cols)) := by
  refine ⟨?_, ?_, ?_⟩
  · intro hlo hhi
    refine ⟨⟨truncToInt f⟩, ?_⟩
    simp only [OrthogonalRegularizer.Create]
    rw [if_pos (truncToInt_in_range f hlo hhi)]
  · intro r hr
    have hfac : r.factor = truncToInt f := by
      simp only [OrthogonalRegularizer.Create] at hr
      split at hr
      · simp only [Option.some.injEq] at hr
        rw [← hr]
      · cases hr
    rw [hfac]
    constructor
    · intro h0
      have e : truncToInt f = ⌊f⌋ := by
        unfold truncToInt
        rw [if_pos h0]
      rw [e]
      exact ⟨Int.floor_nonneg.mpr h0, Int.floor_le f, Int.lt_floor_add_one f⟩
    · intro h0
      by_cases hz : 0 ≤ f
      · have hf : f = 0 := le_antisymm h0 hz
        have e : truncToInt f = 0 := by
          rw [hf]
          have := truncToInt_intCast 0
          simpa using this
        rw [e, hf]
        norm_num
      · have e : truncToInt f = ⌈f⌉ := by
          unfold truncToInt
          rw [if_neg hz]
        rw [e]
        refine ⟨?_, Int.le_ceil f, ?_⟩
        · rw [Int.ceil_le]
          exact_mod_cast h0
        · have := Int.ceil_lt_add_one f
          linarith
  · intro hlo hhi
    constructor
    · simp only [OrthogonalRegularizer.Create, truncToInt_small f hlo hhi, INT_MIN, INT_MAX]
      decide
    · intro W g
      exact OrthogonalRegularizer.Evaluate_factor_zero W g

/-- Witness of C14 at `f = 0.5` and the 1-by-2 weight `[[1, 2]]`. -/
theorem Create_truncates_witness :
    ((-1 : ℚ) < 0.5 ∧ (0.5 : ℚ) < 1) ∧
    OrthogonalRegularizer.Create 0.5 = some ⟨0⟩ ∧
    OrthogonalRegularizer.Evaluate ⟨0⟩ (mat12 1 2) (Mat.zeros 0 0) = some (Mat.zeros 1 2) :=
  have hlo : (-1 : ℚ) < 0.5 := by norm_num
  have hhi : (0.5 : ℚ) < 1 := by norm_num
  ⟨⟨hlo, hhi⟩, ((Create_truncates 0.5).2.2 hlo hhi).1,
    ((Create_truncates 0.5).2.2 hlo hhi).2 (mat12 1 2) (Mat.zeros 0 0)⟩

/-! ## Out-parameters and the caller's objects -/

theorem BinaryClassificationLayer.CalculateErrorRef_eq (l : BinaryClassificationLayer)
    (s : Store) (ia t out : Nat) :
    l.CalculateErrorRef s ia t out =
      (l.CalculateError (s ia) (s t) (s out)).map (fun e => Function.update s out e) := by
  simp only [BinaryClassificationLayer.CalculateErrorRef,
    BinaryClassificationLayer.CalculateError]
  cases (s ia).sub (s t) <;> rfl

theorem BinaryClassificationLayer.OutputClassRef_eq (l : BinaryClassificationLayer)
    (s : Store) (ia out : Nat) :
    l.OutputClassRef s ia out = Function.update s out (l.OutputClass (s ia) (s out)) := by
  simp only [BinaryClassificationLayer.OutputClassRef, BinaryClassificationLayer.OutputClass,
    Function.update_same, Function.update_idem]

/-- C15 fails when the object passed as out-parameter is the input itself:
    `OutputClass(A, A)` with `A = [[0.7]]` leaves `[[1]]` in `A`, and
    `CalculateError(A, T, A)` with `A = [[0.7]]`, `T = [[1]]` leaves `[[-0.3]]`
    in `A`; the input matrix is changed. -/
theorem inputs_unchanged_counterexample :
    (BinaryClassificationLayer.OutputClassRef ⟨⟩ (fun _ => mat11 0.7) 0 0) 0 = mat11 1 ∧
    (BinaryClassificationLayer.OutputClassRef ⟨⟩ (fun _ => mat11 0.7) 0 0) 0 ≠
      (fun _ => mat11 0.7 : Store) 0 ∧
    ∃ s2 : Store,
      BinaryClassificationLayer.CalculateErrorRef ⟨⟩
        (fun p => if p = 1 then mat11 1 else mat11 0.7) 0 1 0 = some s2 ∧
      s2 0 = mat11 (-0.3) ∧
      s2 0 ≠ (fun p => if p = 1 then mat11 1 else mat11 0.7 : Store) 0 := by
  have h1 : (BinaryClassificationLayer.OutputClassRef ⟨⟩ (fun _ => mat11 0.7) 0 0) 0 =
      mat11 1 := by
    rw [BinaryClassificationLayer.OutputClassRef_eq, Function.update_same]
    simp only [BinaryClassificationLayer.OutputClass, Mat.transform, mat11, Mat.mk.injEq,
      heq_eq_eq, true_and]
    funext i j
    norm_num
  have hsub : (mat11 0.7).sub (mat11 1) = some (mat11 (-0.3)) := by
    rw [Mat.sub_conform (mat11 0.7) (mat11 1) rfl rfl, Option.some.injEq]
    simp only [mat11, Mat.mk.injEq, heq_eq_eq, true_and]
    funext i j
    norm_num
  refine ⟨h1, ?_, ?_⟩
  · rw [h1, Ne, mat11_injective]
    norm_num
  · refine ⟨Function.update (fun p => if p = 1 then mat11 1 else mat11 0.7) 0 (mat11 (-0.3)),
      ?_, ?_, ?_⟩
    · rw [BinaryClassificationLayer.CalculateErrorRef_eq]
      simp only [BinaryClassificationLayer.CalculateError]
      show Option.map _ ((mat11 0.7).sub (mat11 1)) = _
      rw [hsub]
      rfl
    · rw [Function.update_same]
    · rw [Function.update_same]
      have e0 : (if (0 : Nat) = 1 then mat11 1 else mat11 0.7) = mat11 0.7 := by
        rw [if_neg (by decide)]
      show mat11 (-0.3) ≠ (if (0 : Nat) = 1 then mat11 1 else mat11 0.7)
      rw [e0, Ne, mat11_injective]
      norm_num

/-- C15 as amended: the value (and shape) each operation leaves in its
    out-parameter is the one computed from the input objects alone, whatever the
    out-parameter held before; every object other than the out-parameter is left
    as it was, so the input matrices are unchanged when the out-parameter is not
    one of them; and replacing what a distinct out-parameter held before by any
    `M` does not change what is left in it. -/
theorem out_parameter_overwritten (l : BinaryClassificationLayer) (s : Store)
    (ia t out : Nat) (M : Mat) :
    (∀ (A T e1 e2 : Mat), l.CalculateError A T e1 = l.CalculateError A T e2) ∧
    (∀ (A o1 o2 : Mat), l.OutputClass A o1 = l.OutputClass A o2) ∧
    ((s ia).n_rows = (s t).n_rows → (s ia).n_cols = (s t).n_cols →
      ∃ s2 : Store, l.CalculateErrorRef s ia t out = some s2) ∧
    (∀ s2 : Store, l.CalculateErrorRef s ia t out = some s2 →
      l.CalculateError (s ia) (s t) (s out) = some (s2 out) ∧
      (∀ p : Nat, p ≠ out → s2 p = s p) ∧
      (out ≠ ia → s2 ia = s ia) ∧ (out ≠ t → s2 t = s t)) ∧
    ((l.OutputClassRef s ia out) out = l.OutputClass (s ia) (s out) ∧
      (∀ p : Nat, p ≠ out → (l.OutputClassRef s ia out) p = s p) ∧
      (out ≠ ia → (l.OutputClassRef s ia out) ia = s ia)) ∧
    (out ≠ ia → out ≠ t →
      (l.CalculateErrorRef (Function.update s out M) ia t out).map (fun s2 => s2 out) =
        (l.CalculateErrorRef s ia t out).map (fun s2 => s2 out)) ∧
    (out ≠ ia →
      (l.OutputClassRef (Function.update s out M) ia out) out =
        (l.OutputClassRef s ia out) out) := by
  refine ⟨fun _ _ _ _ => rfl, fun _ _ _ => rfl, ?_, ?_, ?_, ?_, ?_⟩
  · intro hr hc
    rw [BinaryClassificationLayer.CalculateErrorRef_eq,
      BinaryClassificationLayer.CalculateError, Mat.sub_conform _ _ hr hc]
    exact ⟨_, rfl⟩
  · intro s2 h2
    rw [BinaryClassificationLayer.CalculateErrorRef_eq] at h2
    cases he : l.CalculateError (s ia) (s t) (s out) with
    | none =>
      rw [he] at h2
      cases h2
    | some e =>
      rw [he, Option.map_some', Option.some.injEq] at h2
      subst h2
      refine ⟨by rw [Function.update_same], ?_, ?_, ?_⟩
      · intro p hp
        exact Function.update_noteq hp _ _
      · intro h
        exact Function.update_noteq (Ne.symm h) _ _
      · intro h
        exact Function.update_noteq (Ne.symm h) _ _
  · rw [BinaryClassificationLayer.OutputClassRef_eq]
    refine ⟨by rw [Function.update_same], ?_, ?_⟩
    · intro p hp
      exact Function.update_noteq hp _ _
    · intro h
      exact Function.update_noteq (Ne.symm h) _ _
  · intro h1 h2
    rw [BinaryClassificationLayer.CalculateErrorRef_eq,
      BinaryClassificationLayer.CalculateErrorRef_eq,
      Function.update_noteq (Ne.symm h1), Function.update_noteq (Ne.symm h2)]
    simp only [BinaryClassificationLayer.CalculateError]
    cases (s ia).sub (s t) <;> simp
  · intro h1
    rw [BinaryClassificationLayer.OutputClassRef_eq,
      BinaryClassificationLayer.OutputClassRef_eq, Function.update_same, Function.update_same,
      Function.update_same, Function.update_noteq (Ne.symm h1)]
    rfl

/-- Witness of the amended C15: input `[[0.7]]` at address 0, out-parameter at
    address 1, holding `[[5]]` or `[[9]]` before the call: `[[1]]` is left in the
    out-parameter either way and the input is unchanged. -/
theorem out_parameter_overwritten_witness :
    (1 : Nat) ≠ 0 ∧
    (BinaryClassificationLayer.OutputClassRef ⟨⟩
        (Function.update (fun p => if p = 0 then mat11 0.7 else mat11 5) 1 (mat11 9)) 0 1) 1 =
      (BinaryClassificationLayer.OutputClassRef ⟨⟩
        (fun p => if p = 0 then mat11 0.7 else mat11 5) 0 1) 1 ∧
    (BinaryClassificationLayer.OutputClassRef ⟨⟩
        (fun p => if p = 0 then mat11 0.7 else mat11 5) 0 1) 0 =
      (fun p => if p = 0 then mat11 0.7 else mat11 5 : Store) 0 :=
  ⟨by decide,
    (out_parameter_overwritten ⟨⟩ (fun p => if p = 0 then mat11 0.7 else mat11 5) 0 0 1
      (mat11 9)).2.2.2.2.2.2 (by decide),
    (out_parameter_overwritten ⟨⟩ (fun p => if p = 0 then mat11 0.7 else mat11 5) 0 0 1
      (mat11 9)).2.2.2.2.1.2.2 (by decide)⟩

end mlpack.ann
